import Mathlib

/-
  Verification development for the stock_analyser scoring engine and its
  presentation boundary.

  The repository splits into a Python backend (the scoring core: PriceSeries,
  ReturnCalculator, AccuracyClassifier, ConfidenceAggregator, InvestmentScorer)
  and a Next.js frontend.  The provided sources contain the frontend
  (src/frontend/src/lib/api.ts and the page components) and the README; the
  backend implementation files are not among the provided sources, so the core
  components are modelled from the specification (each such definition is
  marked "Modelled from the spec:").  Frontend computations (accuracyRate,
  companyStats, getUpsideBadge, upside, getAccuracyBadge) and the boundary
  interfaces are embedded directly from the TypeScript source.

  Numbers are modelled by ℚ (the JavaScript/Python float arithmetic involved
  here is exact on the inputs the claims exercise); dates by ℤ day numbers;
  nullable values by Option.
-/

namespace StockAnalyser

/-- Rating categories (§3 of the spec; the `category` field of a Rating). -/
inductive Category
  | strong_sell
  | sell
  | hold
  | buy
  | strong_buy
deriving DecidableEq, Repr

/-- Accuracy verdict of a classified rating (§4.3). -/
inductive Verdict
  | accurate
  | inaccurate
  | pending
deriving DecidableEq, Repr

/-- One point of a price series: date (day number) and closing price.
The full PricePoint record also carries open/high/low/volume, which the core
never reads; only date and close matter for the scoring engine. -/
structure PricePoint where
  date : ℤ
  close : ℚ
deriving DecidableEq, Repr

/-- Modelled from the spec: the nearest-point search inside
`closePriceNear(ticker, targetDate, toleranceDays)` (§4.1); the backend
PriceSeries implementation is not among the provided sources.  Scans the
points whose date lies within the tolerance window and keeps the one nearest
to the target date. -/
def nearestInWindow : List PricePoint → ℤ → ℕ → Option PricePoint
  | [], _, _ => none
  | p :: ps, targetDate, tol =>
      let best := nearestInWindow ps targetDate tol
      if (p.date - targetDate).natAbs ≤ tol then
        match best with
        | none => some p
        | some b =>
            if (p.date - targetDate).natAbs ≤ (b.date - targetDate).natAbs then
              some p
            else some b
      else best

/-- Modelled from the spec: `closePriceNear(ticker, targetDate, toleranceDays)`
(§4.1); the backend PriceSeries implementation is not among the provided
sources.  Returns the close price of the point nearest to `targetDate` within
`toleranceDays`, and none ("unavailable") when no point falls in the window. -/
def closePriceNear (series : List PricePoint) (targetDate : ℤ)
    (toleranceDays : ℕ) : Option ℚ :=
  (nearestInWindow series targetDate toleranceDays).map PricePoint.close

/-- Whether a price point lies inside the tolerance window around a target
date (§4.1). -/
def inWindow (p : PricePoint) (targetDate : ℤ) (tol : ℕ) : Prop :=
  (p.date - targetDate).natAbs ≤ tol

instance (p : PricePoint) (targetDate : ℤ) (tol : ℕ) :
    Decidable (inWindow p targetDate tol) := by
  unfold inWindow; infer_instance

/-- Modelled from the spec: ReturnCalculator.forwardReturn (§4.2); the backend
implementation is not among the provided sources.  The horizon and tolerance
are the named configuration constants HORIZON_DAYS and SMALL_TOLERANCE, passed
here as parameters since the spec leaves their exact values open.  Returns
none for the "pending" outcome. -/
def forwardReturn (series : List PricePoint) (ratingDate : ℤ)
    (horizon : ℤ) (tol : ℕ) : Option ℚ :=
  match closePriceNear series ratingDate tol,
        closePriceNear series (ratingDate + horizon) tol with
  | some entryPrice, some exitPrice => some ((exitPrice - entryPrice) / entryPrice)
  | _, _ => none

/-- Modelled from the spec: AccuracyClassifier.classify (§4.3); the backend
implementation is not among the provided sources.  The thresholds are those of
the spec's table, also documented verbatim in the frontend
(src/frontend/src/app/analysts/[id]/page.tsx lines 233-238).  A pending
forward return yields a pending verdict. -/
def classify (category : Category) (forwardRet : Option ℚ) : Verdict :=
  match forwardRet with
  | none => .pending
  | some r =>
      match category with
      | .buy | .strong_buy => if 5/100 < r then .accurate else .inaccurate
      | .hold => if -(10/100) ≤ r ∧ r ≤ 10/100 then .accurate else .inaccurate
      | .sell | .strong_sell => if r < -(5/100) then .accurate else .inaccurate

/-- Number of ratings in a list carrying a given verdict. -/
def countVerdict (v : Verdict) : List Verdict → ℕ
  | [] => 0
  | w :: ws => (if w = v then 1 else 0) + countVerdict v ws

/-- Count of evaluated ratings: accurate plus inaccurate (§4.4). -/
def evaluatedCount (rs : List Verdict) : ℕ :=
  countVerdict .accurate rs + countVerdict .inaccurate rs

/-- Output of ConfidenceAggregator for one analyst (§4.4). -/
structure AnalystAggregate where
  total_ratings : ℕ
  accurate_ratings : ℕ
  confidence_score : Option ℚ
deriving DecidableEq, Repr

/-- Modelled from the spec: ConfidenceAggregator (§4.4); the backend
implementation is not among the provided sources.  Folds the verdicts of all
of one analyst's ratings into counts and a confidence score; the score is none
when the analyst has no evaluated ratings, and otherwise
100 * accurate / evaluated. -/
def aggregateConfidence (rs : List Verdict) : AnalystAggregate :=
  { total_ratings := rs.length
    accurate_ratings := countVerdict .accurate rs
    confidence_score :=
      if evaluatedCount rs = 0 then none
      else some (100 * (countVerdict .accurate rs : ℚ) / (evaluatedCount rs : ℚ)) }

/-- Signed numeric signal of a rating category (§4.5 step 1). -/
def signal : Category → ℤ
  | .strong_sell => -2
  | .sell => -1
  | .hold => 0
  | .buy => 1
  | .strong_buy => 2

/-- One "current" rating on a company as seen by InvestmentScorer: its
category, the issuing analyst's confidence score, and the price target. -/
structure CurrentRating where
  category : Category
  confidence_score : Option ℚ
  price_target : Option ℚ
deriving DecidableEq, Repr

/-- Modelled from the spec: Σ weight over eligible ratings (§4.5 step 2);
ratings whose analyst has a null confidence are excluded entirely. -/
def sumWeight : List CurrentRating → ℚ
  | [] => 0
  | r :: rs =>
      match r.confidence_score with
      | none => sumWeight rs
      | some w => w + sumWeight rs

/-- Modelled from the spec: Σ weight·signal over eligible ratings (§4.5). -/
def sumWeightedSignal : List CurrentRating → ℚ
  | [] => 0
  | r :: rs =>
      match r.confidence_score with
      | none => sumWeightedSignal rs
      | some w => w * (signal r.category : ℚ) + sumWeightedSignal rs

/-- Modelled from the spec: Σ weight·price_target over ratings carrying a
non-null price target and an eligible analyst weight (§4.5 step 4). -/
def sumWeightedTarget : List CurrentRating → ℚ
  | [] => 0
  | r :: rs =>
      match r.confidence_score, r.price_target with
      | some w, some pt => w * pt + sumWeightedTarget rs
      | _, _ => sumWeightedTarget rs

/-- Modelled from the spec: Σ weight over the priced eligible ratings, the
denominator of target_price (§4.5 step 4). -/
def sumPricedWeight : List CurrentRating → ℚ
  | [] => 0
  | r :: rs =>
      match r.confidence_score, r.price_target with
      | some w, some _ => w + sumPricedWeight rs
      | _, _ => sumPricedWeight rs

/-- Clamp a raw score to the interval [0, 100] (§4.5 step 3). -/
def clampScore (x : ℚ) : ℚ := max 0 (min 100 x)

/-- Modelled from the spec: InvestmentScorer's investment_score (§4.5 step 3);
the backend implementation is not among the provided sources.
50 + 12.5 · (Σ weight·signal / Σ weight), clamped to [0,100]; none when
Σ weight is zero (no eligible ratings). -/
def investment_score (rs : List CurrentRating) : Option ℚ :=
  if sumWeight rs = 0 then none
  else some (clampScore (50 + 25/2 * (sumWeightedSignal rs / sumWeight rs)))

/-- Modelled from the spec: InvestmentScorer's target_price (§4.5 step 4);
the backend implementation is not among the provided sources.
Σ weight·price_target / Σ weight over priced eligible ratings; none when that
weight sum is zero (no eligible priced ratings). -/
def target_price (rs : List CurrentRating) : Option ℚ :=
  if sumPricedWeight rs = 0 then none
  else some (sumWeightedTarget rs / sumPricedWeight rs)

/-- A Rating record with its evaluation fields (§3): actual_return and
was_accurate are both null while the rating is pending. -/
structure Rating where
  analyst_id : String
  ticker : String
  date : ℤ
  category : Category
  price_target : Option ℚ
  actual_return : Option ℚ
  was_accurate : Option Bool
deriving DecidableEq, Repr

/-- Modelled from the spec: rating creation at ingestion time (§3 lifecycle);
the backend implementation is not among the provided sources.  Both evaluation
fields start null. -/
def mkRating (aid tick : String) (date : ℤ) (c : Category)
    (pt : Option ℚ) : Rating :=
  ⟨aid, tick, date, c, pt, none, none⟩

/-- Modelled from the spec: one run of the evaluation pipeline over a rating
(ReturnCalculator §4.2 followed by AccuracyClassifier §4.3); the backend
implementation is not among the provided sources.  When the forward return is
pending the rating is left untouched; otherwise actual_return and was_accurate
are set together from the computed return and its verdict. -/
def evaluateRating (series : List PricePoint) (horizon : ℤ) (tol : ℕ)
    (r : Rating) : Rating :=
  match forwardReturn series r.date horizon tol with
  | none => r
  | some ret =>
      { r with
        actual_return := some ret
        was_accurate :=
          some (match classify r.category (some ret) with
                | .accurate => true
                | _ => false) }

/-- The pending invariant on a Rating (§3): was_accurate is set exactly when
actual_return is set. -/
def pendingInvariant (r : Rating) : Prop :=
  r.was_accurate.isSome ↔ r.actual_return.isSome

instance (r : Rating) : Decidable (pendingInvariant r) := by
  unfold pendingInvariant; infer_instance

/-- From src/frontend/src/lib/api.ts: interface AnalystSummary. -/
structure AnalystSummary where
  analyst_id : String
  name : String
  firm : String
  confidence_score : Option ℚ
  total_ratings : ℕ
deriving DecidableEq, Repr

/-- From src/frontend/src/lib/api.ts: interface RatingSummary. -/
structure RatingSummary where
  ticker : String
  company_name : Option String
  date : String
  rating : String
  price_target : Option ℚ
  was_accurate : Option Bool
  actual_return : Option ℚ
deriving DecidableEq, Repr

/-- From src/frontend/src/lib/api.ts: interface CompanySummary. -/
structure CompanySummary where
  ticker : String
  name : String
  sector : Option String
  current_price : Option ℚ
  target_price : Option ℚ
  investment_score : Option ℚ
deriving DecidableEq, Repr

/-- From src/frontend/src/lib/api.ts: interface CompanyRating. -/
structure CompanyRating where
  analyst_id : String
  analyst_name : String
  firm : String
  confidence_score : Option ℚ
  date : String
  rating : String
  price_target : Option ℚ
deriving DecidableEq, Repr

/-- From src/frontend/src/lib/api.ts: interface AnalystDetail, which extends
AnalystSummary with accurate_ratings and the rating history. -/
structure AnalystDetail where
  analyst_id : String
  name : String
  firm : String
  confidence_score : Option ℚ
  total_ratings : ℕ
  accurate_ratings : ℕ
  ratings : List RatingSummary
deriving DecidableEq, Repr

/-- The field tuple the spec's §6 prescribes for AnalystSummary. -/
def AnalystSummaryShape : Type := String × String × String × Option ℚ × ℕ

/-- The field tuple the spec's §6 prescribes for RatingSummary. -/
def RatingSummaryShape : Type :=
  String × Option String × String × String × Option ℚ × Option Bool × Option ℚ

/-- The field tuple the spec's §6 prescribes for CompanySummary. -/
def CompanySummaryShape : Type :=
  String × String × Option String × Option ℚ × Option ℚ × Option ℚ

/-- The field tuple the spec's §6 prescribes for CompanyRating. -/
def CompanyRatingShape : Type :=
  String × String × String × Option ℚ × String × String × Option ℚ

/-- Field-by-field reading of an AnalystSummary, in the spec's field order. -/
def analystSummaryFields (a : AnalystSummary) : AnalystSummaryShape :=
  (a.analyst_id, a.name, a.firm, a.confidence_score, a.total_ratings)

/-- Rebuild an AnalystSummary from the spec's field tuple. -/
def analystSummaryOfFields : AnalystSummaryShape → AnalystSummary
  | (i, n, f, c, t) => ⟨i, n, f, c, t⟩

/-- Field-by-field reading of a RatingSummary, in the spec's field order. -/
def ratingSummaryFields (r : RatingSummary) : RatingSummaryShape :=
  (r.ticker, r.company_name, r.date, r.rating, r.price_target,
   r.was_accurate, r.actual_return)

/-- Rebuild a RatingSummary from the spec's field tuple. -/
def ratingSummaryOfFields : RatingSummaryShape → RatingSummary
  | (t, cn, d, ra, pt, wa, ar) => ⟨t, cn, d, ra, pt, wa, ar⟩

/-- Field-by-field reading of a CompanySummary, in the spec's field order. -/
def companySummaryFields (c : CompanySummary) : CompanySummaryShape :=
  (c.ticker, c.name, c.sector, c.current_price, c.target_price,
   c.investment_score)

/-- Rebuild a CompanySummary from the spec's field tuple. -/
def companySummaryOfFields : CompanySummaryShape → CompanySummary
  | (t, n, s, cp, tp, sc) => ⟨t, n, s, cp, tp, sc⟩

/-- Field-by-field reading of a CompanyRating, in the spec's field order. -/
def companyRatingFields (r : CompanyRating) : CompanyRatingShape :=
  (r.analyst_id, r.analyst_name, r.firm, r.confidence_score, r.date,
   r.rating, r.price_target)

/-- Rebuild a CompanyRating from the spec's field tuple. -/
def companyRatingOfFields : CompanyRatingShape → CompanyRating
  | (i, n, f, c, d, ra, pt) => ⟨i, n, f, c, d, ra, pt⟩

/-- Badge rendered for a rating's result by the analyst detail page. -/
inductive AccuracyBadge
  | pendingBadge
  | accurateBadge
  | inaccurateBadge
deriving DecidableEq, Repr

/-- From src/frontend/src/app/analysts/[id]/page.tsx lines 37-44:
getAccuracyBadge renders Pending when was_accurate is null, and otherwise the
accurate/inaccurate badge. -/
def getAccuracyBadge : Option Bool → AccuracyBadge
  | none => .pendingBadge
  | some true => .accurateBadge
  | some false => .inaccurateBadge

/-- From src/frontend/src/app/analysts/[id]/page.tsx lines 137-140: the
displayed "Overall Accuracy" is accurate_ratings / total_ratings * 100 when
total_ratings > 0, and the string "N/A" (here none) otherwise. -/
def accuracyRate (a : AnalystDetail) : Option ℚ :=
  if 0 < a.total_ratings then
    some ((a.accurate_ratings : ℚ) / (a.total_ratings : ℚ) * 100)
  else none

/-- From src/frontend/src/app/analysts/[id]/page.tsx lines 97-99: companyStats
counts a rating as accurate when its was_accurate field is truthy, which in
JavaScript means exactly was_accurate === true (null and false are falsy). -/
def companyAccurateCount : List RatingSummary → ℕ
  | [] => 0
  | r :: rs => (if r.was_accurate = some true then 1 else 0) + companyAccurateCount rs

/-- From src/frontend/src/app/analysts/[id]/page.tsx lines 111-114: the
per-company accuracy is accurateCount / ratingsCount * 100, where ratingsCount
is the number of the analyst's ratings on that company (pending included). -/
def companyAccuracy (rs : List RatingSummary) : ℚ :=
  (companyAccurateCount rs : ℚ) / (rs.length : ℚ) * 100

/-- From src/frontend/src/app/companies/page.tsx lines 30-35: getUpsideBadge
renders "-" (here none) unless both prices are truthy — in JavaScript a price
is falsy when it is null or 0 — and otherwise shows
(target - current) / current * 100. -/
def getUpsideBadge (current target : Option ℚ) : Option ℚ :=
  match current, target with
  | some c, some t =>
      if c = 0 ∨ t = 0 then none else some ((t - c) / c * 100)
  | _, _ => none

/-- From src/frontend/src/app/companies/[ticker]/page.tsx lines 73-76: the
upside potential is computed only when current_price && target_price is
truthy, and rendered as "N/A" (here none) otherwise. -/
def upsidePotential (current target : Option ℚ) : Option ℚ :=
  match current, target with
  | some c, some t =>
      if c = 0 ∨ t = 0 then none else some ((t - c) / c * 100)
  | _, _ => none

/-- The spec's end-to-end confidence example (§8): 10 ratings, 7 evaluated
accurate, 1 evaluated inaccurate, 2 pending. -/
def exampleAnalystVerdicts : List Verdict :=
  List.replicate 7 .accurate ++ List.replicate 1 .inaccurate ++
    List.replicate 2 .pending

/-- The spec's end-to-end scoring example (§8): a buy from an analyst with
confidence 80 and price target 120, and a hold from an analyst with
confidence 40 and price target 100. -/
def exampleCompanyRatings : List CurrentRating :=
  [⟨.buy, some 80, some 120⟩, ⟨.hold, some 40, some 100⟩]

lemma countVerdict_accurate_le_evaluated (rs : List Verdict) :
    countVerdict .accurate rs ≤ evaluatedCount rs :=
  Nat.le_add_right _ _

/-- Claim C1: the confidence score is null exactly when the analyst has no
evaluated ratings, equals 100 · accurate / evaluated otherwise, always lies in
[0, 100] when non-null, and the spec's 7-accurate / 1-inaccurate / 2-pending
example yields total_ratings 10, accurate_ratings 7 and confidence 87.5. -/
theorem aggregateConfidence_spec :
    (∀ rs : List Verdict,
      (aggregateConfidence rs).confidence_score = none ↔ evaluatedCount rs = 0) ∧
    (∀ (rs : List Verdict) (c : ℚ),
      (aggregateConfidence rs).confidence_score = some c →
        c = 100 * (countVerdict .accurate rs : ℚ) / (evaluatedCount rs : ℚ) ∧
        0 ≤ c ∧ c ≤ 100) ∧
    (aggregateConfidence exampleAnalystVerdicts).total_ratings = 10 ∧
    (aggregateConfidence exampleAnalystVerdicts).accurate_ratings = 7 ∧
    (aggregateConfidence exampleAnalystVerdicts).confidence_score = some (175/2) := by
  refine ⟨fun rs => ?_, fun rs c hc => ?_, ?_, ?_, ?_⟩
  · by_cases h : evaluatedCount rs = 0 <;> simp [aggregateConfidence, h]
  · by_cases h : evaluatedCount rs = 0
    · simp [aggregateConfidence, h] at hc
    · simp only [aggregateConfidence, h, if_false, Option.some.injEq] at hc
      have he : 0 < (evaluatedCount rs : ℚ) := by
        exact_mod_cast Nat.pos_of_ne_zero h
      have ha : (countVerdict .accurate rs : ℚ) ≤ (evaluatedCount rs : ℚ) := by
        exact_mod_cast countVerdict_accurate_le_evaluated rs
      have ha0 : (0 : ℚ) ≤ (countVerdict .accurate rs : ℚ) := by positivity
      refine ⟨hc.symm, ?_, ?_⟩
      · rw [← hc]; positivity
      · rw [← hc, div_le_iff₀ he]; nlinarith
  · simp [aggregateConfidence, exampleAnalystVerdicts, countVerdict, List.replicate]
  · simp [aggregateConfidence, exampleAnalystVerdicts, countVerdict, List.replicate]
  · simp [aggregateConfidence, exampleAnalystVerdicts, countVerdict,
      evaluatedCount, List.replicate]
    norm_num

/-- Witness for C1: at the spec's example the formula and the bounds hold of
the concrete confidence value 87.5. -/
theorem aggregateConfidence_spec_witness :
    (175/2 : ℚ) =
      100 * (countVerdict .accurate exampleAnalystVerdicts : ℚ) /
        (evaluatedCount exampleAnalystVerdicts : ℚ) ∧
    (0 : ℚ) ≤ 175/2 ∧ (175/2 : ℚ) ≤ 100 :=
  aggregateConfidence_spec.2.1 exampleAnalystVerdicts (175/2)
    aggregateConfidence_spec.2.2.2.2

/-- Claim C2: classification thresholds.  For buy and strong_buy the verdict
is accurate exactly when the forward return strictly exceeds 0.05 (so 0.05
itself classifies inaccurate); for hold exactly when the return lies in
[-0.10, 0.10] with both endpoints accurate; for sell and strong_sell exactly
when the return is below -0.05; every evaluated return gets a non-pending
verdict, and a pending return always gets the pending verdict. -/
theorem classify_spec :
    (∀ r : ℚ,
      (classify .buy (some r) = .accurate ↔ 5/100 < r) ∧
      (classify .strong_buy (some r) = .accurate ↔ 5/100 < r) ∧
      (classify .hold (some r) = .accurate ↔ -(10/100) ≤ r ∧ r ≤ 10/100) ∧
      (classify .sell (some r) = .accurate ↔ r < -(5/100)) ∧
      (classify .strong_sell (some r) = .accurate ↔ r < -(5/100)) ∧
      (classify .buy (some r) = .inaccurate ↔ ¬ 5/100 < r) ∧
      (classify .hold (some r) = .inaccurate ↔ ¬ (-(10/100) ≤ r ∧ r ≤ 10/100)) ∧
      (classify .sell (some r) = .inaccurate ↔ ¬ r < -(5/100))) ∧
    (∀ (c : Category) (r : ℚ), classify c (some r) ≠ .pending) ∧
    (∀ c : Category, classify c none = .pending) ∧
    classify .buy (some (5/100)) = .inaccurate ∧
    classify .buy (some (5/100 + 1/10000000)) = .accurate ∧
    classify .hold (some (-(10/100))) = .accurate ∧
    classify .hold (some (10/100)) = .accurate ∧
    classify .hold (some (10/100 + 1/10000000)) = .inaccurate := by
  refine ⟨fun r => ⟨?_, ?_, ?_, ?_, ?_, ?_, ?_, ?_⟩, fun c r => ?_, fun c => ?_,
    ?_, ?_, ?_, ?_, ?_⟩
  case refine_9 => cases c <;> (simp only [classify]; split_ifs <;> simp)
  case refine_10 => cases c <;> rfl
  case refine_11 => simp [classify] <;> norm_num
  case refine_12 => simp [classify] <;> norm_num
  case refine_13 => simp [classify] <;> norm_num
  case refine_14 => simp [classify] <;> norm_num
  case refine_15 => simp [classify] <;> norm_num
  all_goals (simp only [classify]; split_ifs with h <;> simp [h])

/-- Claim C3: the scorer's category signals, the null condition, the clamped
formula, the [0,100] bounds of every non-null score, and the spec's two-rating
example (target price 340/3 ≈ 113.33, investment score 175/3 ≈ 58.33). -/
theorem investment_score_spec :
    signal .strong_sell = -2 ∧ signal .sell = -1 ∧ signal .hold = 0 ∧
    signal .buy = 1 ∧ signal .strong_buy = 2 ∧
    (∀ rs : List CurrentRating, investment_score rs = none ↔ sumWeight rs = 0) ∧
    (∀ rs : List CurrentRating, sumWeight rs ≠ 0 →
      investment_score rs =
        some (clampScore (50 + 25/2 * (sumWeightedSignal rs / sumWeight rs)))) ∧
    (∀ (rs : List CurrentRating) (c : ℚ),
      investment_score rs = some c → 0 ≤ c ∧ c ≤ 100) ∧
    target_price exampleCompanyRatings = some (340/3) ∧
    investment_score exampleCompanyRatings = some (175/3) := by
  refine ⟨rfl, rfl, rfl, rfl, rfl, fun rs => ?_, fun rs h => ?_,
    fun rs c hc => ?_, ?_, ?_⟩
  · by_cases h : sumWeight rs = 0 <;> simp [investment_score, h]
  · simp [investment_score, h]
  · by_cases h : sumWeight rs = 0
    · simp [investment_score, h] at hc
    · simp only [investment_score, h, if_false, Option.some.injEq] at hc
      rw [← hc]
      unfold clampScore
      constructor
      · exact le_max_left 0 _
      · exact max_le (by norm_num) (min_le_left 100 _)
  · have h1 : sumPricedWeight exampleCompanyRatings = 120 := by
      simp [sumPricedWeight, exampleCompanyRatings]
      norm_num
    have h2 : sumWeightedTarget exampleCompanyRatings = 13600 := by
      simp [sumWeightedTarget, exampleCompanyRatings]
      norm_num
    rw [target_price, h1, h2]
    norm_num
  · have h1 : sumWeight exampleCompanyRatings = 120 := by
      simp [sumWeight, exampleCompanyRatings]
      norm_num
    have h2 : sumWeightedSignal exampleCompanyRatings = 80 := by
      simp [sumWeightedSignal, exampleCompanyRatings, signal]
    rw [investment_score, h1, h2]
    rw [clampScore]
    norm_num

/-- Witness for C3: at the spec's two-rating example the non-null score 175/3
lies inside [0, 100], and the formula clause applies at that example. -/
theorem investment_score_spec_witness :
    ((0 : ℚ) ≤ 175/3 ∧ (175/3 : ℚ) ≤ 100) ∧
    investment_score exampleCompanyRatings =
      some (clampScore (50 + 25/2 *
        (sumWeightedSignal exampleCompanyRatings / sumWeight exampleCompanyRatings))) :=
  ⟨investment_score_spec.2.2.2.2.2.2.2.1 exampleCompanyRatings (175/3)
      investment_score_spec.2.2.2.2.2.2.2.2.2,
    investment_score_spec.2.2.2.2.2.2.1 exampleCompanyRatings
      (by simp only [sumWeight, exampleCompanyRatings]; norm_num)⟩

/-- Claim C5: a rating whose issuing analyst has a null confidence score is
excluded entirely — prepending it to any rating set changes neither the
investment score nor the target price. -/
theorem nullConfidence_exclusion :
    ∀ (rs : List CurrentRating) (r : CurrentRating),
      r.confidence_score = none →
      investment_score (r :: rs) = investment_score rs ∧
      target_price (r :: rs) = target_price rs := by
  intro rs r h
  have h1 : sumWeight (r :: rs) = sumWeight rs := by
    simp [sumWeight, h]
  have h2 : sumWeightedSignal (r :: rs) = sumWeightedSignal rs := by
    simp [sumWeightedSignal, h]
  have h3 : sumWeightedTarget (r :: rs) = sumWeightedTarget rs := by
    simp [sumWeightedTarget, h]
  have h4 : sumPricedWeight (r :: rs) = sumPricedWeight rs := by
    simp [sumPricedWeight, h]
  constructor
  · simp only [investment_score, h1, h2]
  · simp only [target_price, h3, h4]

/-- Witness for C5: prepending a null-confidence hold rating to the spec's
example leaves score and target unchanged. -/
theorem nullConfidence_exclusion_witness :
    investment_score (⟨.hold, none, some 100⟩ :: exampleCompanyRatings) =
      investment_score exampleCompanyRatings ∧
    target_price (⟨.hold, none, some 100⟩ :: exampleCompanyRatings) =
      target_price exampleCompanyRatings :=
  nullConfidence_exclusion exampleCompanyRatings ⟨.hold, none, some 100⟩ rfl

lemma nearestInWindow_eq_none_iff (series : List PricePoint) (t : ℤ) (tol : ℕ) :
    nearestInWindow series t tol = none ↔ ∀ p ∈ series, ¬ inWindow p t tol := by
  induction series with
  | nil => simp [nearestInWindow]
  | cons p ps ih =>
      by_cases h : (p.date - t).natAbs ≤ tol
      · cases hb : nearestInWindow ps t tol with
        | none => simp [nearestInWindow, h, hb, inWindow]
        | some b =>
            simp only [nearestInWindow, hb, h, if_true, inWindow]
            split_ifs <;> simp [h]
      · have hp : ¬ inWindow p t tol := h
        simp only [nearestInWindow, h, if_false]
        rw [ih]
        constructor
        · intro hall q hq
          rcases List.mem_cons.mp hq with hq | hq
          · rw [hq]; exact hp
          · exact hall q hq
        · intro hall q hq
          exact hall q (List.mem_cons_of_mem p hq)

lemma closePriceNear_eq_none_iff (series : List PricePoint) (t : ℤ) (tol : ℕ) :
    closePriceNear series t tol = none ↔ ∀ p ∈ series, ¬ inWindow p t tol := by
  rw [closePriceNear, ← nearestInWindow_eq_none_iff series t tol]
  cases nearestInWindow series t tol <;> simp

/-- A concrete two-point price history used as a witness input: close 100 on
day 0 and close 110 on day 90. -/
def examplePriceSeries : List PricePoint := [⟨0, 100⟩, ⟨90, 110⟩]

/-- Claim C4: forwardReturn is a total function on ratings and price
histories.  It is none ("pending") exactly when the entry or the exit price is
unavailable in its tolerance window — in particular whenever the evaluation
date lies beyond every point of the data snapshot — and whenever both prices
are available it equals (exit - entry) / entry; missing data is a normal
pending outcome, never a failure. -/
theorem forwardReturn_spec :
    ∀ (series : List PricePoint) (d horizon : ℤ) (tol : ℕ),
      (forwardReturn series d horizon tol = none ↔
        closePriceNear series d tol = none ∨
        closePriceNear series (d + horizon) tol = none) ∧
      (∀ e x : ℚ, closePriceNear series d tol = some e →
        closePriceNear series (d + horizon) tol = some x →
        forwardReturn series d horizon tol = some ((x - e) / e)) ∧
      (closePriceNear series d tol = none ↔ ∀ p ∈ series, ¬ inWindow p d tol) ∧
      ((∀ p ∈ series, p.date + (tol : ℤ) < d + horizon) →
        forwardReturn series d horizon tol = none) := by
  intro series d horizon tol
  refine ⟨?_, ?_, closePriceNear_eq_none_iff series d tol, ?_⟩
  · cases h1 : closePriceNear series d tol <;>
      cases h2 : closePriceNear series (d + horizon) tol <;>
      simp [forwardReturn, h1, h2]
  · intro e x h1 h2
    simp [forwardReturn, h1, h2]
  · intro hfut
    have hexit : closePriceNear series (d + horizon) tol = none := by
      rw [closePriceNear_eq_none_iff]
      intro p hp
      have hlt := hfut p hp
      simp only [inWindow]
      omega
    cases h1 : closePriceNear series d tol <;> simp [forwardReturn, h1, hexit]

/-- Witness for C4: on the two-point example history a rating on day 0 with a
90-day horizon gets return (110 - 100) / 100, and a rating on day 200 — whose
evaluation date lies beyond the snapshot — is pending. -/
theorem forwardReturn_spec_witness :
    forwardReturn examplePriceSeries 0 90 5 = some ((110 - 100) / 100) ∧
    forwardReturn examplePriceSeries 200 90 5 = none := by
  constructor
  · refine (forwardReturn_spec examplePriceSeries 0 90 5).2.1 100 110 ?_ ?_
    · simp [closePriceNear, nearestInWindow, examplePriceSeries]
    · simp [closePriceNear, nearestInWindow, examplePriceSeries]
  · refine (forwardReturn_spec examplePriceSeries 200 90 5).2.2.2 ?_
    intro p hp
    simp only [examplePriceSeries, List.mem_cons, List.mem_singleton,
      List.not_mem_nil, or_false] at hp
    rcases hp with h | h <;> subst h <;> decide

lemma signal_le_two (c : Category) : (signal c : ℚ) ≤ 2 := by
  cases c <;> norm_num [signal]

lemma sumWeight_nonneg :
    ∀ rs : List CurrentRating,
      (∀ s ∈ rs, ∀ c, s.confidence_score = some c → 0 ≤ c) →
      0 ≤ sumWeight rs := by
  intro rs
  induction rs with
  | nil => intro _; simp [sumWeight]
  | cons r rest ih =>
      intro h
      have hrest := ih fun s hs => h s (List.mem_cons_of_mem r hs)
      cases hc : r.confidence_score with
      | none => simpa [sumWeight, hc] using hrest
      | some w =>
          have hw := h r (List.mem_cons_self r rest) w hc
          simp only [sumWeight, hc]
          linarith

lemma sumWeightedSignal_le_two_mul :
    ∀ rs : List CurrentRating,
      (∀ s ∈ rs, ∀ c, s.confidence_score = some c → 0 ≤ c) →
      sumWeightedSignal rs ≤ 2 * sumWeight rs := by
  intro rs
  induction rs with
  | nil => intro _; simp [sumWeightedSignal, sumWeight]
  | cons r rest ih =>
      intro h
      have hrest := ih fun s hs => h s (List.mem_cons_of_mem r hs)
      cases hc : r.confidence_score with
      | none => simpa [sumWeightedSignal, sumWeight, hc] using hrest
      | some w =>
          have hw := h r (List.mem_cons_self r rest) w hc
          have hsig : w * (signal r.category : ℚ) ≤ w * 2 :=
            mul_le_mul_of_nonneg_left (signal_le_two r.category) hw
          simp only [sumWeightedSignal, sumWeight, hc]
          linarith

lemma clampScore_mono {x y : ℚ} (h : x ≤ y) : clampScore x ≤ clampScore y :=
  max_le_max le_rfl (min_le_min le_rfl h)

/-- Claim C6: over rating sets whose confidence weights are the nonnegative
values ConfidenceAggregator produces, adding one strong_buy rating from an
analyst with a positive (non-null) confidence never decreases a non-null
investment score. -/
theorem strongBuy_monotone :
    ∀ (rs : List CurrentRating) (r : CurrentRating) (w : ℚ),
      (∀ s ∈ rs, ∀ c, s.confidence_score = some c → 0 ≤ c) →
      r.category = .strong_buy → r.confidence_score = some w → 0 < w →
      ∀ a b : ℚ, investment_score rs = some a →
        investment_score (r :: rs) = some b → a ≤ b := by
  intro rs r w hnn hcat hconf hw a b ha hb
  by_cases h0 : sumWeight rs = 0
  · simp [investment_score, h0] at ha
  have hWpos : 0 < sumWeight rs :=
    lt_of_le_of_ne (sumWeight_nonneg rs hnn) (Ne.symm h0)
  have hSle : sumWeightedSignal rs ≤ 2 * sumWeight rs :=
    sumWeightedSignal_le_two_mul rs hnn
  have hwW : sumWeight (r :: rs) = w + sumWeight rs := by
    simp [sumWeight, hconf]
  have hwS : sumWeightedSignal (r :: rs) = w * 2 + sumWeightedSignal rs := by
    simp [sumWeightedSignal, hconf, hcat, signal]
  have hwWpos : 0 < w + sumWeight rs := by linarith
  have hne2 : sumWeight (r :: rs) ≠ 0 := by rw [hwW]; linarith
  simp only [investment_score, h0, hne2, if_false, Option.some.injEq] at ha hb
  rw [hwW, hwS] at hb
  have hdiv : sumWeightedSignal rs / sumWeight rs ≤
      (w * 2 + sumWeightedSignal rs) / (w + sumWeight rs) := by
    rw [div_le_div_iff₀ hWpos hwWpos]
    nlinarith [mul_le_mul_of_nonneg_right hSle (le_of_lt hw)]
  have hlin : 50 + 25/2 * (sumWeightedSignal rs / sumWeight rs) ≤
      50 + 25/2 * ((w * 2 + sumWeightedSignal rs) / (w + sumWeight rs)) := by
    linarith
  rw [← ha, ← hb]
  exact clampScore_mono hlin

/-- Witness for C6: adding a strong_buy at confidence 80 to a single hold at
confidence 50 raises the score from 50 to 850/13. -/
theorem strongBuy_monotone_witness : (50 : ℚ) ≤ 850/13 := by
  refine strongBuy_monotone [⟨.hold, some 50, none⟩] ⟨.strong_buy, some 80, none⟩
    80 ?_ rfl rfl (by norm_num) 50 (850/13) ?_ ?_
  · intro s hs c hc
    simp only [List.mem_singleton] at hs
    subst hs
    simp only [Option.some.injEq] at hc
    rw [← hc]
    norm_num
  · have h1 : sumWeight [(⟨.hold, some 50, none⟩ : CurrentRating)] = 50 := by
      simp [sumWeight]
    have h2 : sumWeightedSignal [(⟨.hold, some 50, none⟩ : CurrentRating)] = 0 := by
      simp [sumWeightedSignal, signal]
    rw [investment_score, h1, h2, clampScore]
    norm_num
  · have h1 : sumWeight [(⟨.strong_buy, some 80, none⟩ : CurrentRating),
        ⟨.hold, some 50, none⟩] = 130 := by
      simp [sumWeight]
      norm_num
    have h2 : sumWeightedSignal [(⟨.strong_buy, some 80, none⟩ : CurrentRating),
        ⟨.hold, some 50, none⟩] = 160 := by
      simp [sumWeightedSignal, signal]
      norm_num
    rw [investment_score, h1, h2, clampScore]
    norm_num

/-- Claim C7: a rating is created with both evaluation fields null, every run
of the evaluation pipeline preserves the invariant that was_accurate is
non-null exactly when actual_return is non-null, and the presentation layer
renders the Pending badge exactly on a null was_accurate. -/
theorem pending_invariant_spec :
    (∀ (aid tick : String) (d : ℤ) (c : Category) (pt : Option ℚ),
      pendingInvariant (mkRating aid tick d c pt)) ∧
    (∀ (series : List PricePoint) (horizon : ℤ) (tol : ℕ) (r : Rating),
      pendingInvariant r → pendingInvariant (evaluateRating series horizon tol r)) ∧
    (∀ w : Option Bool, getAccuracyBadge w = .pendingBadge ↔ w = none) := by
  refine ⟨?_, ?_, ?_⟩
  · intro aid tick d c pt
    simp [pendingInvariant, mkRating]
  · intro series horizon tol r hr
    cases h : forwardReturn series r.date horizon tol with
    | none => simpa [evaluateRating, h] using hr
    | some ret => simp [evaluateRating, h, pendingInvariant]
  · intro w
    cases w with
    | none => simp [getAccuracyBadge]
    | some b => cases b <;> simp [getAccuracyBadge]

/-- Witness for C7: evaluating a freshly created rating against an empty price
history keeps it pending and keeps the invariant. -/
theorem pending_invariant_spec_witness :
    pendingInvariant (evaluateRating [] 90 5 (mkRating ("a1") ("T") 0 .buy none)) :=
  pending_invariant_spec.2.1 [] 90 5 (mkRating ("a1") ("T") 0 .buy none)
    (pending_invariant_spec.1 ("a1") ("T") 0 .buy none)

/-- Claim C8: each boundary interface of src/frontend/src/lib/api.ts carries
exactly the fields the spec's §6 prescribes, with the prescribed nullability:
reading the fields off a record and rebuilding the record are mutually inverse
between each interface and its spec-shaped field tuple. -/
theorem boundary_shapes_spec :
    (∀ a : AnalystSummary, analystSummaryOfFields (analystSummaryFields a) = a) ∧
    (∀ s : AnalystSummaryShape, analystSummaryFields (analystSummaryOfFields s) = s) ∧
    (∀ r : RatingSummary, ratingSummaryOfFields (ratingSummaryFields r) = r) ∧
    (∀ s : RatingSummaryShape, ratingSummaryFields (ratingSummaryOfFields s) = s) ∧
    (∀ c : CompanySummary, companySummaryOfFields (companySummaryFields c) = c) ∧
    (∀ s : CompanySummaryShape, companySummaryFields (companySummaryOfFields s) = s) ∧
    (∀ r : CompanyRating, companyRatingOfFields (companyRatingFields r) = r) ∧
    (∀ s : CompanyRatingShape, companyRatingFields (companyRatingOfFields s) = s) :=
  ⟨fun _ => rfl, fun _ => rfl, fun _ => rfl, fun _ => rfl,
   fun _ => rfl, fun _ => rfl, fun _ => rfl, fun _ => rfl⟩

/-- Rating history of the C9 counterexample analyst: one evaluated inaccurate
call and one pending call on the same ticker. -/
def cexRatingsList : List RatingSummary :=
  [⟨"T", none, "2024-01-02", "buy", none, some false, some (-(2/10))⟩,
   ⟨"T", none, "2024-02-02", "buy", none, none, none⟩]

/-- The C9 counterexample analyst: 2 total ratings, 0 accurate, 1 evaluated
(inaccurate), 1 pending, so the confidence-score definition gives 0. -/
def cexAnalyst : AnalystDetail :=
  ⟨"a1", "A", "F", some 0, 2, 0, cexRatingsList⟩

/-- Counterexample to C9 as stated: this analyst has a pending rating, yet the
displayed overall accuracy (0) is not strictly less than
100 · accurate / evaluated (also 0) — strictness fails when the analyst has no
accurate calls. -/
theorem accuracyRate_claim_counterexample :
    0 < cexAnalyst.total_ratings ∧
    0 < countVerdict .pending [Verdict.inaccurate, Verdict.pending] ∧
    accuracyRate cexAnalyst = some 0 ∧
    (aggregateConfidence [Verdict.inaccurate, Verdict.pending]).confidence_score =
      some 0 ∧
    ¬ ((0 : ℚ) < 0) := by
  refine ⟨by norm_num [cexAnalyst], by norm_num [countVerdict], ?_, ?_, by norm_num⟩
  · rw [accuracyRate]
    norm_num [cexAnalyst]
  · simp [aggregateConfidence, countVerdict, evaluatedCount]

/-- Claim C9 (amended): the displayed overall accuracy is
100 · accurate_ratings / total_ratings whenever total_ratings > 0, the
per-company accuracy is 100 · accurateCount / ratingsCount with the
denominator counting pending ratings, the displayed accuracy is strictly below
the confidence-score value 100 · accurate / evaluated whenever the analyst has
at least one pending rating AND at least one accurate rating, and an analyst
with only pending ratings displays 0 rather than N/A. -/
theorem accuracyRate_spec :
    (∀ a : AnalystDetail, 0 < a.total_ratings →
      accuracyRate a = some (100 * (a.accurate_ratings : ℚ) / (a.total_ratings : ℚ))) ∧
    (∀ rs : List RatingSummary, rs ≠ [] →
      companyAccuracy rs = 100 * (companyAccurateCount rs : ℚ) / (rs.length : ℚ)) ∧
    (∀ (a : AnalystDetail) (evaluated pend : ℕ),
      a.total_ratings = evaluated + pend →
      a.accurate_ratings ≤ evaluated →
      0 < a.accurate_ratings → 0 < pend →
      ∀ q : ℚ, accuracyRate a = some q →
        q < 100 * (a.accurate_ratings : ℚ) / (evaluated : ℚ)) ∧
    (∀ a : AnalystDetail, 0 < a.total_ratings → a.accurate_ratings = 0 →
      accuracyRate a = some 0) := by
  refine ⟨?_, ?_, ?_, ?_⟩
  · intro a h
    rw [accuracyRate, if_pos h]
    congr 1
    ring
  · intro rs _
    rw [companyAccuracy]
    ring
  · intro a evaluated pend htot hae hacc hp q hq
    have htotpos : 0 < a.total_ratings := by omega
    rw [accuracyRate, if_pos htotpos, Option.some.injEq] at hq
    have hepos : 0 < evaluated := lt_of_lt_of_le hacc hae
    have hA : (0 : ℚ) < (a.accurate_ratings : ℚ) := by exact_mod_cast hacc
    have hE : (0 : ℚ) < (evaluated : ℚ) := by exact_mod_cast hepos
    have hT : (0 : ℚ) < (a.total_ratings : ℚ) := by exact_mod_cast htotpos
    have hET : (evaluated : ℚ) < (a.total_ratings : ℚ) := by
      have : evaluated < a.total_ratings := by omega
      exact_mod_cast this
    rw [← hq]
    have hform : (a.accurate_ratings : ℚ) / (a.total_ratings : ℚ) * 100 =
        100 * (a.accurate_ratings : ℚ) / (a.total_ratings : ℚ) := by ring
    rw [hform, div_lt_div_iff₀ hT hE]
    nlinarith
  · intro a h h0
    rw [accuracyRate, if_pos h, h0]
    norm_num

/-- Witness input for the amended C9: 3 total ratings, 1 accurate, 2
evaluated, 1 pending. -/
def witnessAnalyst : AnalystDetail := ⟨"a2", "B", "G", some 50, 3, 1, []⟩

/-- Witness for the amended C9: the displayed accuracy 100/3 of the witness
analyst is strictly below the confidence value 100·1/2. -/
theorem accuracyRate_spec_witness :
    (100/3 : ℚ) < 100 * ((witnessAnalyst.accurate_ratings : ℕ) : ℚ) / ((2 : ℕ) : ℚ) := by
  refine accuracyRate_spec.2.2.1 witnessAnalyst 2 1 ?_ ?_ ?_ ?_ (100/3) ?_
  · norm_num [witnessAnalyst]
  · norm_num [witnessAnalyst]
  · norm_num [witnessAnalyst]
  · norm_num
  · rw [accuracyRate]
    norm_num [witnessAnalyst]

/-- Claim C10: the upside percentage is computed exactly when both prices are
truthy (non-null and non-zero); a null or zero current or target price renders
the placeholder instead, so the division by current_price never happens with a
zero divisor, and a zero price is indistinguishable from a missing one; the
company detail page's upside computation agrees with the list page's badge. -/
theorem upside_guard_spec :
    (∀ c t : Option ℚ, (getUpsideBadge c t).isSome ↔
      ((∃ cv, c = some cv ∧ cv ≠ 0) ∧ (∃ tv, t = some tv ∧ tv ≠ 0))) ∧
    (∀ cv tv : ℚ, cv ≠ 0 → tv ≠ 0 →
      getUpsideBadge (some cv) (some tv) = some ((tv - cv) / cv * 100)) ∧
    (∀ t : Option ℚ, getUpsideBadge (some 0) t = getUpsideBadge none t) ∧
    (∀ c : Option ℚ, getUpsideBadge c (some 0) = getUpsideBadge c none) ∧
    (∀ c t : Option ℚ, upsidePotential c t = getUpsideBadge c t) := by
  refine ⟨?_, ?_, ?_, ?_, ?_⟩
  · intro c t
    cases c with
    | none => simp [getUpsideBadge]
    | some cv =>
        cases t with
        | none => simp [getUpsideBadge]
        | some tv =>
            by_cases h1 : cv = 0 <;> by_cases h2 : tv = 0 <;>
              simp [getUpsideBadge, h1, h2]
  · intro cv tv h1 h2
    simp [getUpsideBadge, h1, h2]
  · intro t
    cases t with
    | none => simp [getUpsideBadge]
    | some tv => simp [getUpsideBadge]
  · intro c
    cases c with
    | none => simp [getUpsideBadge]
    | some cv => simp [getUpsideBadge]
  · intro c t
    cases c <;> cases t <;> rfl

/-- Witness for C10: with current price 100 and target 150 the computed upside
is (150 - 100) / 100 · 100 = 50 percent. -/
theorem upside_guard_spec_witness :
    getUpsideBadge (some 100) (some 150) = some ((150 - 100) / 100 * 100) :=
  upside_guard_spec.2.1 100 150 (by norm_num) (by norm_num)

end StockAnalyser

